import Mathlib

/-!
Verification of the admin dashboard's "Full Sync" job polling protocol and the
multi-candidate endpoint resolver, shallowly embedded from the TypeScript
sources:

  * `admin-ui/src/app/lib/api.ts` — `extractJobIdFromResponse`,
    `startFullSyncAsync`, `getFullSyncStatus`, `runFullSync`;
  * the full-sync proxy route (three variants) with `extractJobId` and the
    `dry_run` / `purge_bin` defaulting;
  * the shipping-sync resolver route (`candidateUrls` loop with
    "Non-JSON response despite 2xx") and the mapping-store GET resolver;
  * the `ClientButtons` component's polling loop.

JavaScript dynamic values are embedded as a `Json` inductive; JS truthiness,
`||`, `??` and strict-mode property-assignment semantics are modelled
explicitly.  Machine reals (JS numbers) only occur as integers in the code
paths under study and are embedded as `Int`.
-/

namespace ErpWoo

/-- A JSON value, as produced by a successful `JSON.parse`.  Object fields are
kept as an association list; `JSON.parse` yields at most one binding per key
(later duplicates overwrite earlier ones), so lists built here have unique
keys and first-match lookup coincides with JS property access. -/
inductive Json where
  | null : Json
  | bool (b : Bool) : Json
  | num (n : Int) : Json
  | str (s : String) : Json
  | arr (elems : List Json) : Json
  | obj (fields : List (String × Json)) : Json
deriving Repr, BEq

/-- JS truthiness of a value: `null`, `false`, `0` and `""` are falsy,
every array and object is truthy. -/
def Json.truthy : Json → Bool
  | .null => false
  | .bool b => b
  | .num n => n != 0
  | .str s => s != ""
  | .arr _ => true
  | .obj _ => true

/-- JS optional-chained property access `v?.k`: `none` models `undefined`
(field absent or receiver not an object). -/
def Json.getField : Json → String → Option Json
  | .obj fields, k => (fields.find? (fun f => f.1 = k)).map (·.2)
  | _, _ => none

/-- JS `a || b` on possibly-undefined values (`none` = `undefined`):
returns `a` when truthy, otherwise `b` verbatim. -/
def jsOr (a b : Option Json) : Option Json :=
  match a with
  | some v => if v.truthy then some v else b
  | none => b

/-- JS `a || b` where `b` is a definite value (so the result is definite). -/
def jsOrV (a : Option Json) (b : Json) : Json :=
  match a with
  | some v => if v.truthy then v else b
  | none => b

/-- JS nullish coalescing `a ?? b` on possibly-undefined values:
returns `a` unless it is `undefined` or `null`. -/
def jsNullish (a : Option Json) (b : Json) : Json :=
  match a with
  | some .null => b
  | some v => v
  | none => b

/-- JS `a || b` on nullable strings (`headers.get` results): the empty
string is falsy and falls through. -/
def jsOrS (a b : Option String) : Option String :=
  match a with
  | some s => if s = "" then b else some s
  | none => b

/-- JS `a || b` with a string environment variable (`string | undefined`)
on the left and a definite string default. -/
def orEnv (a : Option String) (b : String) : String :=
  match a with
  | some s => if s = "" then b else s
  | none => b

/-- The text of an HTTP response body together with the outcome of
`JSON.parse` on it: `json j raw` is a body whose raw text `raw` parses to
`j`; `notJson raw` is a body on which `JSON.parse` throws. -/
inductive BodyText where
  | json (j : Json) (raw : String) : BodyText
  | notJson (raw : String) : BodyText
deriving Repr, BEq

/-- The raw text of a body, i.e. what `res.text()` returns. -/
def BodyText.raw : BodyText → String
  | .json _ r => r
  | .notJson r => r

/-- `await req.json().catch(() => ({}))`: the parsed request body, or `{}`
when the body is not valid JSON. -/
def parsedOrEmpty : BodyText → Json
  | .json j _ => j
  | .notJson _ => .obj []

/-! ### String utilities shared by the routes -/

/-- ASCII lowercasing of one character (`String.prototype.toLowerCase` on
the ASCII range; the statuses at hand are ASCII). -/
def lowerChar (c : Char) : Char :=
  if 'A' ≤ c ∧ c ≤ 'Z' then Char.ofNat (c.toNat + 32) else c

/-- `s.toLowerCase()` over ASCII text. -/
def lowerAscii (s : String) : String := String.mk (s.data.map lowerChar)

/-- Membership in the regex character class `[A-Za-z0-9_-]`.  Lean's
`Char.isAlphanum` is exactly ASCII `[A-Za-z0-9]`. -/
def isWordChar (c : Char) : Bool :=
  c.isAlphanum || c = '_' || c = '-'

/-- Single left-to-right scan implementing `text.match(/[A-Za-z0-9_-]{10,}/)`:
`acc` is the current run of word characters, reversed.  When a run ends (a
non-word character or the end of the text) and it has length at least 10 it
is the leftmost match and `{10,}` greedily takes the whole run; shorter runs
are discarded and the scan continues. -/
def firstLongTokenGo : List Char → List Char → Option (List Char)
  | [], acc => if 10 ≤ acc.length then some acc.reverse else none
  | c :: cs, acc =>
    if isWordChar c then firstLongTokenGo cs (c :: acc)
    else if 10 ≤ acc.length then some acc.reverse
    else firstLongTokenGo cs []

def firstLongToken (s : String) : Option String :=
  (firstLongTokenGo s.data []).map String.mk

/-- `s.replace(/\s+/g, " ")`: collapse each maximal whitespace run into a
single space (the flag records whether the previous character was part of a
whitespace run).  `Char.isWhitespace` approximates the JS `\s` class (it
covers space, tab, CR, LF, which is what the proxied bodies contain). -/
def collapseWsGo : List Char → Bool → List Char
  | [], _ => []
  | c :: cs, inRun =>
    if c.isWhitespace then
      if inRun then collapseWsGo cs true else ' ' :: collapseWsGo cs true
    else c :: collapseWsGo cs false

def collapseWs (l : List Char) : List Char := collapseWsGo l false

/-- `previewBody` from the shipping-sync route: collapse whitespace, trim,
truncate to 200 characters with an ellipsis.  (`slice` counts UTF-16 units;
`String.take` counts characters — they agree on the BMP text at hand.) -/
def previewBody (s : String) : String :=
  let t := (String.mk (collapseWs s.data)).trim
  if t.length ≤ 200 then t else (t.take 200).push '…'

/-- `bodyPreview` from the mapping-store route: same shape with a 240-char
budget; the suffix reproduces the literal bytes appearing in the source. -/
def bodyPreview (s : String) : String :=
  let clean := (String.mk (collapseWs s.data)).trim
  if clean.length ≤ 240 then clean else (clean.take 240) ++ "â€¦"

/-- `(url || "http://integration:8000").replace(/\/+$/, "")`: strip
trailing slashes. -/
def stripTrailingSlashes (s : String) : String :=
  String.mk (((s.data.reverse).dropWhile (fun c => c = '/')).reverse)

/-! ### Base64 and HTTP Basic credentials (`Buffer.from(...).toString("base64")`) -/

def b64Chars : List Char :=
  "ABCDEFGHIJKLMNOPQRSTUVWXYZabcdefghijklmnopqrstuvwxyz0123456789+/".data

def b64Char (n : Nat) : Char := b64Chars.getD n 'A'

/-- UTF-8 bytes of a Unicode scalar value, as natural numbers below 256. -/
def charUtf8 (n : Nat) : List Nat :=
  if n < 0x80 then [n]
  else if n < 0x800 then [0xC0 + n / 64, 0x80 + n % 64]
  else if n < 0x10000 then [0xE0 + n / 4096, 0x80 + n / 64 % 64, 0x80 + n % 64]
  else [0xF0 + n / 262144, 0x80 + n / 4096 % 64, 0x80 + n / 64 % 64, 0x80 + n % 64]

def utf8Bytes (s : String) : List Nat :=
  s.data.foldr (fun c acc => charUtf8 c.toNat ++ acc) []

def base64Encode : List Nat → String
  | [] => ""
  | [b1] =>
    String.mk [b64Char (b1 / 4), b64Char (b1 % 4 * 16)] ++ "=="
  | [b1, b2] =>
    String.mk [b64Char (b1 / 4), b64Char (b1 % 4 * 16 + b2 / 16), b64Char (b2 % 16 * 4)] ++ "="
  | b1 :: b2 :: b3 :: rest =>
    String.mk [b64Char (b1 / 4), b64Char (b1 % 4 * 16 + b2 / 16),
               b64Char (b2 % 16 * 4 + b3 / 64), b64Char (b3 % 64)] ++ base64Encode rest

/-- `"Basic " + Buffer.from(user + ":" + pass).toString("base64")`. -/
def basicToken (user pass : String) : String :=
  "Basic " ++ base64Encode (utf8Bytes (user ++ ":" ++ pass))

/-! ### HTTP responses and job-id extraction -/

/-- The response headers consulted by `extractJobIdFromResponse`.
`headers.get` returns the header value or `null`; the `Headers` API is
case-insensitive, so one field per queried name suffices. -/
structure SyncHeaders where
  hXJobId : Option String := none
  hXJobid : Option String := none
  hJobId : Option String := none
  hLocation : Option String := none
deriving Repr, BEq

/-- A `fetch` `Response` as consumed by the client helpers: status code,
the headers of interest, the declared content type, and the body text
together with its `JSON.parse` outcome. -/
structure HttpResponse where
  status : Nat
  headers : SyncHeaders := {}
  contentType : Option String := none
  body : BodyText
deriving Repr, BEq

/-- `res.ok`: status in the inclusive range 200–299. -/
def HttpResponse.ok (r : HttpResponse) : Bool :=
  decide (200 ≤ r.status) && decide (r.status ≤ 299)

/-- `parts[parts.length - 1]` after `loc.split('/')` (split never returns an
empty list, so the index is always in range). -/
def lastSegment (loc : String) : String :=
  ((loc.splitOn "/").getLast?).getD ""

/-- `extractJobIdFromResponse(res, text)` from `api.ts` (the route-level
`extractJobId` in the full-sync proxy is textually identical): try the
`x-job-id`, `x-jobid`, `job-id` headers, then the last path segment of
`Location`, then — only when the body text is non-empty — the JSON fields
`job_id` / `id` if the body parses, or the first ≥10-character word token
of the raw text if it does not.  The result is the dynamic JS value
(headers and tokens are strings; a JSON field keeps its own type). -/
def extractJobIdFromResponse (h : SyncHeaders) (text : Option BodyText) : Option Json :=
  let fromHeaders := jsOrS h.hXJobId (jsOrS h.hXJobid (jsOrS h.hJobId none))
  let fromLocation :=
    match fromHeaders with
    | some s => some s
    | none =>
      let loc := (h.hLocation).getD ""
      if loc = "" then none
      else if lastSegment loc = "" then none
      else some (lastSegment loc)
  match fromLocation with
  | some s => some (.str s)
  | none =>
    match text with
    | none => none
    | some bt =>
      if bt.raw = "" then none
      else
        match bt with
        | .json j _ => jsOr (j.getField "job_id") (jsOr (j.getField "id") none)
        | .notJson raw => (firstLongToken raw).map Json.str

/-- `(body as any)._httpStatus = res.status` under strict-mode JS: succeeds
on objects (adding or overwriting the field), is a silent no-op on arrays in
this model (the expando is not representable and nothing reads it), and
throws `TypeError` (`none`) on primitives and `null`. -/
def setHttpStatus (j : Json) (status : Nat) : Option Json :=
  match j with
  | .obj fields =>
    some (.obj (fields.filter (fun f => f.1 ≠ "_httpStatus") ++ [("_httpStatus", .num status)]))
  | .arr xs => some (.arr xs)
  | _ => none

/-- The discriminated result of `startFullSyncAsync`. -/
inductive StartFullSyncResponse where
  | sync (result : Json) : StartFullSyncResponse
  | async (jobId : Json) : StartFullSyncResponse
deriving Repr, BEq

/-- `startFullSyncAsync` from `api.ts`, as a function of the response to the
`POST /api/integration/full` call.  `Except.error` models a thrown `Error`
with the given message.  Note that on a non-ok JSON body the inner
`throw new Error(msg)` is caught by the function's own `catch`, which
rethrows plain `"HTTP <status>"`. -/
def startFullSyncAsync (res : HttpResponse) : Except String StartFullSyncResponse :=
  if res.status = 202 then
    match extractJobIdFromResponse res.headers (some res.body) with
    | some v =>
      if v.truthy then .ok (.async v)
      else .error "202 Accepted but no job id was provided."
    | none => .error "202 Accepted but no job id was provided."
  else
    match res.body with
    | .json j raw =>
      match setHttpStatus j res.status with
      | some j2 =>
        if res.ok then .ok (.sync j2)
        else .error ("HTTP " ++ toString res.status)
      | none =>
        -- strict-mode TypeError while tagging a primitive body, caught below
        if res.ok then .ok (.sync (.obj [("raw", .str raw)]))
        else .error ("HTTP " ++ toString res.status)
    | .notJson raw =>
      if res.ok then .ok (.sync (.obj [("raw", .str raw)]))
      else .error ("HTTP " ++ toString res.status)

/-! ### Job status polling -/

/-- The four-valued job status of the `SyncJob` type. -/
inductive JobStatus where
  | queued | running | done | error
deriving Repr, BEq, DecidableEq

/-- `['queued', 'running', 'done', 'error'].includes(status) ? status : 'running'`. -/
def normalizeStatus (s : String) : JobStatus :=
  if s = "queued" then .queued
  else if s = "running" then .running
  else if s = "done" then .done
  else if s = "error" then .error
  else .running

/-- The `SyncJob` record built by `getFullSyncStatus`.  Dynamic fields keep
their JS value; `none` models `undefined`. -/
structure SyncJobRec where
  id : Json
  status : JobStatus
  result : Option Json := none
  error : Option Json := none
  progress : Option Int := none
  message : Option Json := none
deriving Repr, BEq

/-- `(js?.status || '').toLowerCase()`:  `none` models the strict-mode
`TypeError` raised when the (truthy) status field is not a string, which the
surrounding `catch` turns into `Bad status payload`. -/
def statusText (js : Json) : Option String :=
  match js.getField "status" with
  | some v =>
    if v.truthy then
      match v with
      | .str s => some (lowerAscii s)
      | _ => none
    else some ""
  | none => some ""

/-- `getFullSyncStatus(jobId)` from `api.ts`, as a function of the response
of the status endpoint. -/
def getFullSyncStatus (jobId : String) (res : HttpResponse) : Except String SyncJobRec :=
  let text := res.body.raw
  if res.ok then
    match res.body with
    | .json js _ =>
      match statusText js with
      | some s =>
        .ok { id := jsOrV (js.getField "id") (.str jobId)
              status := normalizeStatus s
              result := js.getField "result"
              error := jsOr (js.getField "error") (js.getField "detail")
              progress :=
                match js.getField "progress" with
                | some (.num n) => some n
                | _ => none
              message := js.getField "message" }
      | none => .error ("Bad status payload: " ++ text)
    | .notJson _ => .error ("Bad status payload: " ++ text)
  else .error ("Status " ++ toString res.status ++ ": " ++ text)

/-! ### The two polling loops -/

/-- Escaping of a string for `JSON.stringify` (quote, backslash and the
common control characters; other code points are emitted verbatim). -/
def jsonEscape (s : String) : String :=
  s.data.foldr
    (fun c acc =>
      (if c = '"' then "\\\""
       else if c = '\\' then "\\\\"
       else if c = '\n' then "\\n"
       else if c = '\r' then "\\r"
       else if c = '\t' then "\\t"
       else String.mk [c]) ++ acc) ""

def jsonQuote (s : String) : String := "\"" ++ jsonEscape s ++ "\""

/-- `JSON.stringify` on a parsed value. -/
def stringifyJS : Json → String
  | .null => "null"
  | .bool true => "true"
  | .bool false => "false"
  | .num n => toString n
  | .str s => jsonQuote s
  | .arr xs =>
    "[" ++ String.intercalate "," (xs.attach.map (fun x => stringifyJS x.1)) ++ "]"
  | .obj fs =>
    "\x7b" ++
      String.intercalate ","
        (fs.attach.map (fun f => jsonQuote f.1.1 ++ ":" ++ stringifyJS f.1.2)) ++
    "\x7d"
decreasing_by
  · have h := List.sizeOf_lt_of_mem x.2
    simp only [Json.arr.sizeOf_spec]
    omega
  · have h := List.sizeOf_lt_of_mem f.2
    have h2 : sizeOf f.1.2 < sizeOf f.1 := by
      obtain ⟨a, b⟩ := f.1
      simp only [Prod.mk.sizeOf_spec]
      omega
    simp only [Json.obj.sizeOf_spec]
    omega

/-- The message of the error thrown by `runFullSync` on a terminal `error`
status: `(typeof s.error === 'string' ? s.error : JSON.stringify(s.error || {}))
|| 'Full sync failed'`. -/
def runErrMsg (e : Option Json) : String :=
  let m :=
    match e with
    | some (.str s) => s
    | some v => if v.truthy then stringifyJS v else stringifyJS (.obj [])
    | none => stringifyJS (.obj [])
  if m = "" then "Full sync failed" else m

/-- One scripted status check: either the `SyncJob` record returned by
`getFullSyncStatus` or the message of the error it threw (non-2xx response,
network failure, or non-JSON body). -/
abbrev PollResult := Except String SyncJobRec

/-- A status that keeps the `ClientButtons` loop going: any caught error and
any non-terminal job status. -/
def clientNonTerminal : PollResult → Bool
  | .error _ => true
  | .ok s =>
    match s.status with
    | .done => false
    | .error => false
    | _ => true

/-- A status that keeps the `runFullSync` loop going: only a successfully
parsed non-terminal job status (a thrown status check aborts that loop). -/
def runNonTerminal : PollResult → Bool
  | .error _ => false
  | .ok s =>
    match s.status with
    | .done => false
    | .error => false
    | _ => true

/-- Outcome of the `ClientButtons` full-sync click handler. -/
inductive ClientOutcome where
  | syncDone : ClientOutcome
  | pollDone : ClientOutcome
  | pollFailed (err : Option Json) : ClientOutcome
  | startFailed (msg : String) : ClientOutcome
  | pending : ClientOutcome
deriving Repr, BEq

/-- The polling loop of the `ClientButtons` component, driven by a script of
status-check results.  Returns the outcome, the list of waits (`delay`
values passed to `setTimeout`, in order) and the number of status checks
consumed.  A caught status error falls through to the wait, exactly like a
non-terminal status; `done` / `error` break before any further wait. -/
def clientPollLoop : List PollResult → Nat → ClientOutcome × List Nat × Nat
  | [], _ => (.pending, [], 0)
  | r :: rest, delay =>
    match r with
    | .ok s =>
      match s.status with
      | .done => (.pollDone, [], 1)
      | .error => (.pollFailed s.error, [], 1)
      | _ =>
        let next := clientPollLoop rest (min (delay + 400) 4000)
        (next.1, delay :: next.2.1, next.2.2 + 1)
    | .error _ =>
      let next := clientPollLoop rest (min (delay + 400) 4000)
      (next.1, delay :: next.2.1, next.2.2 + 1)

/-- The whole click handler: start the job, finish immediately on the
synchronous path, otherwise poll with initial delay 800. -/
def clientFullSync (startRes : HttpResponse) (polls : List PollResult) :
    ClientOutcome × List Nat × Nat :=
  match startFullSyncAsync startRes with
  | .error m => (.startFailed m, [], 0)
  | .ok (.sync _) => (.syncDone, [], 0)
  | .ok (.async _) => clientPollLoop polls 800

/-- Outcome of the blocking `runFullSync` helper. -/
inductive RunOutcome where
  | syncResult (r : Json) : RunOutcome
  | jobResult (r : Option Json) : RunOutcome
  | thrown (msg : String) : RunOutcome
  | pending : RunOutcome
deriving Repr, BEq

/-- The polling loop of `runFullSync`: no `try`/`catch`, so a failed status
check propagates and aborts the whole operation. -/
def runFullSyncPoll : List PollResult → Nat → RunOutcome × List Nat × Nat
  | [], _ => (.pending, [], 0)
  | r :: rest, delay =>
    match r with
    | .error m => (.thrown m, [], 1)
    | .ok s =>
      match s.status with
      | .done => (.jobResult s.result, [], 1)
      | .error => (.thrown (runErrMsg s.error), [], 1)
      | _ =>
        let next := runFullSyncPoll rest (min (delay + 400) 4000)
        (next.1, delay :: next.2.1, next.2.2 + 1)

/-- `runFullSync` from `api.ts`: start the job; return directly on the
synchronous path, otherwise block on the polling loop. -/
def runFullSync (startRes : HttpResponse) (polls : List PollResult) :
    RunOutcome × List Nat × Nat :=
  match startFullSyncAsync startRes with
  | .error m => (.thrown m, [], 0)
  | .ok (.sync r) => (.syncResult r, [], 0)
  | .ok (.async _) => runFullSyncPoll polls 800

/-! ### Proxy routes: configuration, auth headers, request bodies -/

/-- The environment variables the routes read (`process.env.X` is
`string | undefined`). -/
structure Env where
  integrationBaseUrl : Option String := none
  integrationAdminUser : Option String := none
  integrationAdminPass : Option String := none
  adminUser : Option String := none
  adminPass : Option String := none
deriving Repr, BEq

/-- `INTEGRATION_ADMIN_USER || ADMIN_USER || ""`. -/
def envUser (e : Env) : String :=
  orEnv e.integrationAdminUser (orEnv e.adminUser "")

/-- `INTEGRATION_ADMIN_PASS || ADMIN_PASS || ""`. -/
def envPass (e : Env) : String :=
  orEnv e.integrationAdminPass (orEnv e.adminPass "")

/-- `buildAuthHeader` from `api.ts` / `authHeader` from the shipping-sync
route / `buildAuthHeader` from the mapping-store route: `undefined` when
either credential is missing, otherwise a Basic token — it never fails. -/
def buildAuthHeader (e : Env) : Option String :=
  if envUser e = "" ∨ envPass e = "" then none
  else some (basicToken (envUser e) (envPass e))

/-- `basicAuth` from the full-sync proxy route: no `ADMIN_*` fallback and no
missing-credential check — empty credentials still yield a Basic token. -/
def basicAuth9 (e : Env) : String :=
  basicToken (orEnv e.integrationAdminUser "") (orEnv e.integrationAdminPass "")

/-- The request body forwarded by the first full-sync proxy variant:
`dry_run = Boolean(body?.dry_run ?? false)`,
`purge_bin = Boolean(body?.purge_bin ?? true)` (snake_case only). -/
def fullBody1 (body : Json) : Json :=
  .obj [("dry_run", .bool (jsNullish (body.getField "dry_run") (.bool false)).truthy),
        ("purge_bin", .bool (jsNullish (body.getField "purge_bin") (.bool true)).truthy)]

/-- The request body forwarded by the second and third full-sync proxy
variants: `!!(body?.dryRun ?? body?.dry_run ?? false)` and
`!!(body?.purgeBin ?? body?.purge_bin ?? true)`. -/
def fullBody2 (body : Json) : Json :=
  .obj [("dry_run",
          .bool (jsNullish (body.getField "dryRun")
                  (jsNullish (body.getField "dry_run") (.bool false))).truthy),
        ("purge_bin",
          .bool (jsNullish (body.getField "purgeBin")
                  (jsNullish (body.getField "purge_bin") (.bool true))).truthy)]

/-- A backend request the proxy is about to issue. -/
structure ForwardReq where
  url : String
  authorization : Option String := none
  body : Json
deriving Repr, BEq

/-- What a proxy route does before touching the network: either answer
immediately with a configuration error, or issue a backend request. -/
inductive ProxyAction where
  | early (status : Nat) (body : Json) : ProxyAction
  | forward (req : ForwardReq) : ProxyAction
deriving Repr, BEq

/-- The first full-sync proxy variant (`POST`): the only route that fails
fast on a missing/empty `INTEGRATION_BASE_URL`, before any fetch. -/
def fullSyncProxy1 (e : Env) (reqBody : BodyText) : ProxyAction :=
  if (e.integrationBaseUrl).getD "" = "" then
    .early 500 (.obj [("error", .str "INTEGRATION_BASE_URL missing")])
  else
    .forward { url := (e.integrationBaseUrl).getD "" ++ "/api/sync/full"
               authorization := some (basicAuth9 e)
               body := fullBody1 (parsedOrEmpty reqBody) }

/-- The second/third full-sync proxy variants use
`process.env.INTEGRATION_BASE_URL!` with no check and always forward. -/
def fullSyncProxy2 (e : Env) (reqBody : BodyText) : ProxyAction :=
  .forward { url := (e.integrationBaseUrl).getD "undefined" ++ "/api/sync/full"
             authorization := some (basicAuth9 e)
             body := fullBody2 (parsedOrEmpty reqBody) }

/-! ### Endpoint resolvers -/

/-- `BASE` of the shipping-sync and mapping-store routes:
`(INTEGRATION_BASE_URL || "http://integration:8000").replace(/\/+$/, "")`. -/
def resolvedBase (e : Env) : String :=
  stripTrailingSlashes (orEnv e.integrationBaseUrl "http://integration:8000")

/-- `candidateUrls()` of the shipping-sync route. -/
def shipCandidateUrls (e : Env) : List String :=
  [resolvedBase e ++ "/admin/api/integration/shipping/sync",
   resolvedBase e ++ "/admin/api/shipping/sync",
   resolvedBase e ++ "/api/integration/shipping/sync",
   resolvedBase e ++ "/api/shipping/sync",
   resolvedBase e ++ "/integration/shipping/sync",
   resolvedBase e ++ "/shipping/sync"]

/-- `candidateUrls(base)` of the mapping-store route. -/
def mapCandidateUrls (e : Env) : List String :=
  [resolvedBase e ++ "/api/integration/mapping/store",
   resolvedBase e ++ "/admin/api/mapping/store",
   resolvedBase e ++ "/api/mapping/store",
   resolvedBase e ++ "/mapping/store"]

/-- The headers of the shipping-sync route: `Accept`, `Content-Type`, and
`Authorization` only when credentials are configured. -/
def shipHeaders (e : Env) : List (String × String) :=
  [("Accept", "application/json"), ("Content-Type", "application/json")] ++
    (match buildAuthHeader e with
     | some a => [("Authorization", a)]
     | none => [])

/-- One candidate probe: the URL plus the scripted result of fetching it
(`Except.error` is a network failure with the thrown message). -/
structure Candidate where
  url : String
  result : Except String HttpResponse
deriving Repr

/-- A `Tried` diagnostic record of the shipping-sync route. -/
structure TriedShip where
  url : String
  status : Option Nat := none
  ok : Option Bool := none
  bodyPreview : Option String := none
  error : Option String := none
deriving Repr, BEq

/-- A `Tried` diagnostic record of the mapping-store route (it also stores
the content type). -/
structure TriedMap where
  url : String
  status : Option Nat := none
  ok : Option Bool := none
  contentType : Option (Option String) := none
  bodyPreview : Option String := none
  error : Option String := none
deriving Repr, BEq

/-- Result of a resolver run: the first winning JSON body together with the
diagnostics accumulated before it, or the full diagnostic list when every
candidate failed. -/
inductive ResolveOutcome (T : Type) where
  | success (data : Json) (tried : List T) : ResolveOutcome T
  | failure (tried : List T) : ResolveOutcome T
deriving Repr, BEq

/-- Prepend one diagnostic record (the loop pushes before recursing, so the
record of an earlier candidate precedes later ones). -/
def consTried {T : Type} (a : T) : ResolveOutcome T → ResolveOutcome T
  | .success d t => .success d (a :: t)
  | .failure t => .failure (a :: t)

/-- The shipping-sync resolver loop (`POST`): first 2xx candidate whose body
is empty (→ `{}`) or parses as JSON wins immediately; a 2xx with an
unparseable non-empty body is recorded as `"Non-JSON response despite 2xx"`
and the next candidate is tried; non-2xx and network errors are recorded
and skipped.  On exhaustion the route answers 502
`"Not Found at integration"` with the `tried` list. -/
def shippingSyncResolve : List Candidate → ResolveOutcome TriedShip
  | [] => .failure []
  | c :: rest =>
    match c.result with
    | .error e => consTried { url := c.url, error := some e } (shippingSyncResolve rest)
    | .ok r =>
      let attempt : TriedShip :=
        { url := c.url, status := some r.status, ok := some r.ok
          bodyPreview := some (previewBody r.body.raw) }
      if r.ok then
        if r.body.raw = "" then .success (.obj []) []
        else
          match r.body with
          | .json j _ => .success j []
          | .notJson _ =>
            consTried { attempt with error := some "Non-JSON response despite 2xx" }
              (shippingSyncResolve rest)
      else consTried attempt (shippingSyncResolve rest)

/-- `tryFetchJson` of the mapping-store route, flattened: network failures
become `ok := false, status := 0` records. -/
def mapAttempt (c : Candidate) : TriedMap :=
  match c.result with
  | .error e =>
    { url := c.url, status := some 0, ok := some false, contentType := some none
      bodyPreview := some (bodyPreview ""), error := some e }
  | .ok r =>
    { url := c.url, status := some r.status, ok := some r.ok
      contentType := some r.contentType
      bodyPreview := some (bodyPreview r.body.raw)
      error := if r.ok then none else some ("HTTP " ++ toString r.status) }

/-- `data && typeof data === "object"`: arrays and objects pass, `null` and
primitives do not. -/
def isJsObject : Json → Bool
  | .obj _ => true
  | .arr _ => true
  | _ => false

/-- The mapping-store `GET` resolver loop: every candidate is recorded
first; a 2xx candidate wins only when its body is empty (→ `{}`) or parses
to an object/array — a 2xx body that fails to parse, or parses to a
primitive, is skipped silently (no extra error marker). -/
def mappingStoreGet : List Candidate → ResolveOutcome TriedMap
  | [] => .failure []
  | c :: rest =>
    let attempt := mapAttempt c
    match c.result with
    | .error _ => consTried attempt (mappingStoreGet rest)
    | .ok r =>
      if r.ok then
        if r.body.raw = "" then .success (.obj []) [attempt]
        else
          match r.body with
          | .json j _ =>
            if isJsObject j then .success j [attempt]
            else consTried attempt (mappingStoreGet rest)
          | .notJson _ => consTried attempt (mappingStoreGet rest)
      else consTried attempt (mappingStoreGet rest)

/-- The shipping-sync route as a whole: it performs no configuration check
and always starts probing the candidate list. -/
def shippingSyncRoute (e : Env) (results : List (Except String HttpResponse)) :
    ResolveOutcome TriedShip :=
  shippingSyncResolve (List.zipWith Candidate.mk (shipCandidateUrls e) results)

/-! ## Theorems -/

/-- A nullable string that is falsy in JS (`null` or `""`). -/
def strFalsy : Option String → Bool
  | none => true
  | some s => s = ""

/-- All three job-id headers are falsy. -/
def headersFalsy (h : SyncHeaders) : Bool :=
  strFalsy h.hXJobId && strFalsy h.hXJobid && strFalsy h.hJobId

/-- The `Location` header yields no id: it is falsy or its last path segment
is empty. -/
def locationFalsy (h : SyncHeaders) : Bool :=
  ((h.hLocation).getD "" = "") || (lastSegment ((h.hLocation).getD "") = "")

/-- The JSON field is absent or falsy (so `j?.k || _` falls through). -/
def fieldFalsy (j : Json) (k : String) : Bool :=
  match j.getField k with
  | some v => !v.truthy
  | none => true

theorem jsOrS_of_falsy (a b : Option String) (ha : strFalsy a = true) : jsOrS a b = b := by
  cases a with
  | none => rfl
  | some s =>
    simp only [strFalsy, decide_eq_true_eq] at ha
    simp [jsOrS, ha]

theorem jsOr_of_falsy (a b : Option Json) (ha : ∀ v, a = some v → v.truthy = false) :
    jsOr a b = b := by
  cases a with
  | none => rfl
  | some v => simp [jsOr, ha v rfl]

/-- Under falsy headers and a falsy location, extraction is decided by the
body alone. -/
theorem extract_headers_falsy (h : SyncHeaders) (t : Option BodyText)
    (hh : headersFalsy h = true) (hl : locationFalsy h = true) :
    extractJobIdFromResponse h t =
      match t with
      | none => none
      | some bt =>
        if bt.raw = "" then none
        else
          match bt with
          | .json j _ => jsOr (j.getField "job_id") (jsOr (j.getField "id") none)
          | .notJson raw => (firstLongToken raw).map Json.str := by
  simp only [headersFalsy, Bool.and_eq_true] at hh
  obtain ⟨⟨h1, h2⟩, h3⟩ := hh
  simp only [extractJobIdFromResponse, jsOrS_of_falsy _ _ h1, jsOrS_of_falsy _ _ h2,
    jsOrS_of_falsy _ _ h3]
  simp only [locationFalsy, Bool.or_eq_true, decide_eq_true_eq] at hl
  rcases hl with hl | hl
  · simp [hl]
  · by_cases hloc : (h.hLocation).getD "" = ""
    · simp [hloc]
    · simp [hloc, hl]

theorem jsOr_field_falsy (j : Json) (k : String) (b : Option Json)
    (hf : fieldFalsy j k = true) : jsOr (j.getField k) b = b := by
  cases hg : j.getField k with
  | none => rfl
  | some v =>
    unfold fieldFalsy at hf
    rw [hg] at hf
    simp only [Bool.not_eq_true'] at hf
    simp [jsOr, hf]

/-- Specialization of `extract_headers_falsy` to a parsed non-empty body. -/
theorem extract_json_body (h : SyncHeaders) (t : Option BodyText)
    (hh : headersFalsy h = true) (hl : locationFalsy h = true)
    (j : Json) (raw : String) (ht : t = some (.json j raw)) (hraw : raw ≠ "") :
    extractJobIdFromResponse h t =
      jsOr (j.getField "job_id") (jsOr (j.getField "id") none) := by
  rw [extract_headers_falsy h t hh hl, ht]
  simp [BodyText.raw, hraw]

/-- Specialization of `extract_headers_falsy` to an unparseable non-empty
body. -/
theorem extract_notJson_body (h : SyncHeaders) (t : Option BodyText)
    (hh : headersFalsy h = true) (hl : locationFalsy h = true)
    (raw : String) (ht : t = some (.notJson raw)) (hraw : raw ≠ "") :
    extractJobIdFromResponse h t = (firstLongToken raw).map Json.str := by
  rw [extract_headers_falsy h t hh hl, ht]
  simp [BodyText.raw, hraw]

/-- Claim C1 (amended): the job id is the first available of the `x-job-id`,
`x-jobid`, `job-id` headers, the last path segment of `Location`, then — for
a non-empty body — the JSON field `job_id` or `id` when the body parses; the
≥10-character word-token regex scan of the raw body is used only when the
body does NOT parse as JSON.  When the body is valid JSON but both fields
are absent or falsy, no id is extracted (the claim's regex fallback is not
taken).  The spec's pinned example (header `ABC` beats body `XYZ` and
`Location` `QRS`) holds. -/
theorem C1_extraction_amended (h : SyncHeaders) (t : Option BodyText) :
    (∀ s, h.hXJobId = some s → s ≠ "" →
        extractJobIdFromResponse h t = some (.str s)) ∧
    (strFalsy h.hXJobId = true → ∀ s, h.hXJobid = some s → s ≠ "" →
        extractJobIdFromResponse h t = some (.str s)) ∧
    (strFalsy h.hXJobId = true → strFalsy h.hXJobid = true →
        ∀ s, h.hJobId = some s → s ≠ "" →
        extractJobIdFromResponse h t = some (.str s)) ∧
    (headersFalsy h = true → ∀ loc, h.hLocation = some loc → loc ≠ "" →
        lastSegment loc ≠ "" →
        extractJobIdFromResponse h t = some (.str (lastSegment loc))) ∧
    (headersFalsy h = true → locationFalsy h = true →
        ∀ j raw, t = some (.json j raw) → raw ≠ "" →
        ((∀ v, j.getField "job_id" = some v → v.truthy = true →
            extractJobIdFromResponse h t = some v) ∧
         (fieldFalsy j "job_id" = true →
            ∀ v, j.getField "id" = some v → v.truthy = true →
            extractJobIdFromResponse h t = some v) ∧
         (fieldFalsy j "job_id" = true → fieldFalsy j "id" = true →
            extractJobIdFromResponse h t = none))) ∧
    (headersFalsy h = true → locationFalsy h = true →
        ∀ raw, t = some (.notJson raw) → raw ≠ "" →
        extractJobIdFromResponse h t = (firstLongToken raw).map Json.str) ∧
    extractJobIdFromResponse
      { hXJobId := some "ABC", hLocation := some "/jobs/QRS" }
      (some (.json (.obj [("job_id", .str "XYZ")]) "\x7b\"job_id\":\"XYZ\"\x7d"))
      = some (.str "ABC") := by
  refine ⟨?_, ?_, ?_, ?_, ?_, ?_, rfl⟩
  · intro s hs hne
    have e1 : jsOrS h.hXJobId (jsOrS h.hXJobid (jsOrS h.hJobId none)) = some s := by
      rw [hs]
      simp [jsOrS, hne]
    simp [extractJobIdFromResponse, e1]
  · intro h1 s hs hne
    have e1 : jsOrS h.hXJobId (jsOrS h.hXJobid (jsOrS h.hJobId none)) = some s := by
      rw [jsOrS_of_falsy _ _ h1, hs]
      simp [jsOrS, hne]
    simp [extractJobIdFromResponse, e1]
  · intro h1 h2 s hs hne
    have e1 : jsOrS h.hXJobId (jsOrS h.hXJobid (jsOrS h.hJobId none)) = some s := by
      rw [jsOrS_of_falsy _ _ h1, jsOrS_of_falsy _ _ h2, hs]
      simp [jsOrS, hne]
    simp [extractJobIdFromResponse, e1]
  · intro hh loc hloc hne hseg
    simp only [headersFalsy, Bool.and_eq_true] at hh
    obtain ⟨⟨h1, h2⟩, h3⟩ := hh
    have e1 : jsOrS h.hXJobId (jsOrS h.hXJobid (jsOrS h.hJobId none)) = none := by
      rw [jsOrS_of_falsy _ _ h1, jsOrS_of_falsy _ _ h2, jsOrS_of_falsy _ _ h3]
    simp [extractJobIdFromResponse, e1, hloc, hne, hseg]
  · intro hh hl j raw ht hraw
    refine ⟨?_, ?_, ?_⟩
    · intro v hv htr
      rw [extract_json_body h t hh hl j raw ht hraw]
      simp [jsOr, hv, htr]
    · intro hf v hv htr
      rw [extract_json_body h t hh hl j raw ht hraw, jsOr_field_falsy _ _ _ hf]
      simp [jsOr, hv, htr]
    · intro hf1 hf2
      rw [extract_json_body h t hh hl j raw ht hraw, jsOr_field_falsy _ _ _ hf1,
        jsOr_field_falsy _ _ _ hf2]
  · intro hh hl raw ht hraw
    exact extract_notJson_body h t hh hl raw ht hraw

/-- Claim C1 witness: conjunct instances evaluated at concrete responses. -/
theorem C1_extraction_amended_witness :
    extractJobIdFromResponse
      { hXJobId := some "JOBID-ONE-1" }
      (some (.json (.obj [("job_id", .str "XYZ")]) "x")) = some (.str "JOBID-ONE-1") ∧
    extractJobIdFromResponse {}
      (some (.json (.obj [("id", .str "FALLBACK-ID-2")]) "x")) = some (.str "FALLBACK-ID-2") ∧
    extractJobIdFromResponse {}
      (some (.notJson "see job abcdefgh-1234 queued")) = some (.str "abcdefgh-1234") ∧
    extractJobIdFromResponse {}
      (some (.json (.obj [("note", .str "abcdefgh-1234")]) "\x7b\"note\":\"abcdefgh-1234\"\x7d"))
      = none := by
  refine ⟨?_, ?_, ?_, ?_⟩
  · exact (C1_extraction_amended { hXJobId := some "JOBID-ONE-1" }
      (some (.json (.obj [("job_id", .str "XYZ")]) "x"))).1 "JOBID-ONE-1" rfl (by decide)
  · exact (((C1_extraction_amended {}
      (some (.json (.obj [("id", .str "FALLBACK-ID-2")]) "x"))).2.2.2.2.1
      (by decide) (by decide) _ "x" rfl (by decide)).2.1 (by decide) (.str "FALLBACK-ID-2")
      rfl (by decide))
  · exact ((C1_extraction_amended {}
      (some (.notJson "see job abcdefgh-1234 queued"))).2.2.2.2.2.1
      (by decide) (by decide) "see job abcdefgh-1234 queued" rfl (by decide)).trans rfl
  · exact (((C1_extraction_amended {}
      (some (.json (.obj [("note", .str "abcdefgh-1234")])
        "\x7b\"note\":\"abcdefgh-1234\"\x7d"))).2.2.2.2.1
      (by decide) (by decide) _ _ rfl (by decide)).2.2 (by decide) (by decide))

/-- Claim C1 counterexample: with no header or `Location` id and a body that
IS valid JSON but carries neither `job_id` nor `id`, the code extracts no id
at all, although the raw body text contains a ≥10-character word token that
the claim says must be used. -/
theorem C1_extraction_counterexample :
    extractJobIdFromResponse {}
      (some (.json (.obj [("token", .str "abcdefghijk")])
        "\x7b\"token\":\"abcdefghijk\"\x7d")) = none ∧
    firstLongToken "\x7b\"token\":\"abcdefghijk\"\x7d" = some "abcdefghijk" := by
  exact ⟨rfl, rfl⟩

theorem statusText_of_str (js : Json) (s : String)
    (hs : js.getField "status" = some (.str s)) : statusText js = some (lowerAscii s) := by
  unfold statusText
  rw [hs]
  by_cases he : s = ""
  · subst he
    rfl
  · simp [Json.truthy, he]

theorem normalizeStatus_of_unknown (s : String)
    (hs : s ∉ (["queued", "running", "done", "error"] : List String)) :
    normalizeStatus s = .running := by
  simp only [List.mem_cons, List.mem_singleton, not_or] at hs
  obtain ⟨h1, h2, h3, h4, _⟩ := hs
  simp [normalizeStatus, h1, h2, h3, h4]

/-- Claim C2 (amended): a poll response whose `status` string, AFTER ASCII
lowercasing, falls outside `queued`/`running`/`done`/`error` — and likewise
a response with no `status` field at all — yields a job record with status
`running`, never an undefined status and never `queued`.  (The code
lowercases before the membership test, so e.g. `"DONE"` is recognized as
`done`; the claim's literal, case-sensitive reading fails, see the
counterexample.) -/
theorem C2_status_normalization_amended (jobId : String) (res : HttpResponse)
    (js : Json) (raw : String)
    (hok : res.ok = true) (hb : res.body = .json js raw) :
    (∀ s, js.getField "status" = some (.str s) →
        lowerAscii s ∉ (["queued", "running", "done", "error"] : List String) →
        ∃ job, getFullSyncStatus jobId res = .ok job ∧ job.status = .running) ∧
    (js.getField "status" = none →
        ∃ job, getFullSyncStatus jobId res = .ok job ∧ job.status = .running) := by
  constructor
  · intro s hs hmem
    unfold getFullSyncStatus
    rw [hb]
    simp only [hok, if_true, statusText_of_str js s hs]
    exact ⟨_, rfl, normalizeStatus_of_unknown _ hmem⟩
  · intro hnone
    have hst : statusText js = some "" := by
      unfold statusText
      rw [hnone]
    unfold getFullSyncStatus
    rw [hb]
    simp only [hok, if_true, hst]
    exact ⟨_, rfl, by simp [normalizeStatus]⟩

/-- The spec's pinned probe: a 200 status response whose body is
`{"status":"weird-value"}`. -/
def weirdStatusRes : HttpResponse :=
  { status := 200
    body := .json (.obj [("status", .str "weird-value")]) "\x7b\"status\":\"weird-value\"\x7d" }

/-- A 200 status response whose body has no `status` field. -/
def noStatusRes : HttpResponse :=
  { status := 200, body := .json (.obj [("ok", .bool true)]) "\x7b\"ok\":true\x7d" }

/-- Claim C2 witness: the spec's pinned probe `{"status":"weird-value"}`
(and a body with no status field) both resolve to `running`. -/
theorem C2_status_normalization_witness :
    (∃ job, getFullSyncStatus "J" weirdStatusRes = .ok job ∧ job.status = .running) ∧
    (∃ job, getFullSyncStatus "J" noStatusRes = .ok job ∧ job.status = .running) := by
  constructor
  · exact (C2_status_normalization_amended "J" weirdStatusRes
      (.obj [("status", .str "weird-value")]) "\x7b\"status\":\"weird-value\"\x7d"
      rfl rfl).1 "weird-value" rfl (by decide)
  · exact (C2_status_normalization_amended "J" noStatusRes
      (.obj [("ok", .bool true)]) "\x7b\"ok\":true\x7d" rfl rfl).2 rfl

/-- Claim C2 counterexample: `"QUEUED"` and `"DONE"` are status strings
outside the literal set `{queued, running, done, error}`, yet the code maps
them (after lowercasing) to `queued` and `done` — not to `running`, and in
the first case exactly to the `queued` the claim rules out. -/
theorem C2_status_normalization_counterexample :
    ("QUEUED" ∉ (["queued", "running", "done", "error"] : List String)) ∧
    (getFullSyncStatus "J"
        { status := 200
          body := .json (.obj [("status", .str "QUEUED")]) "\x7b\"status\":\"QUEUED\"\x7d" }).map
      (fun j => j.status) = .ok .queued ∧
    ("DONE" ∉ (["queued", "running", "done", "error"] : List String)) ∧
    (getFullSyncStatus "J"
        { status := 200
          body := .json (.obj [("status", .str "DONE")]) "\x7b\"status\":\"DONE\"\x7d" }).map
      (fun j => j.status) = .ok .done := by
  exact ⟨by decide, rfl, by decide, rfl⟩

/-- The waits of the `ClientButtons` loop under non-terminal polls: the
`k`-th wait is `min (d + 400k) 4000`. -/
theorem clientPollLoop_waits : ∀ (polls : List PollResult) (d : Nat), d ≤ 4000 →
    (∀ r ∈ polls, clientNonTerminal r = true) →
    (clientPollLoop polls d).2.1 =
      (List.range polls.length).map (fun k => min (d + 400 * k) 4000)
  | [], d, _, _ => by simp [clientPollLoop]
  | r :: rest, d, hd, h => by
    have hr := h r (List.mem_cons_self r rest)
    have hrest : ∀ x ∈ rest, clientNonTerminal x = true :=
      fun x hx => h x (List.mem_cons_of_mem r hx)
    have ih := clientPollLoop_waits rest (min (d + 400) 4000) (Nat.min_le_right _ _) hrest
    have hstep : (clientPollLoop (r :: rest) d).2.1 =
        d :: (clientPollLoop rest (min (d + 400) 4000)).2.1 := by
      cases r with
      | error e => rfl
      | ok s =>
        cases hst : s.status with
        | queued => simp [clientPollLoop, hst]
        | running => simp [clientPollLoop, hst]
        | done => simp [clientNonTerminal, hst] at hr
        | error => simp [clientNonTerminal, hst] at hr
    rw [hstep, ih, List.length_cons, List.range_succ_eq_map, List.map_cons, List.map_map]
    congr 1
    · omega
    · apply List.map_congr_left
      intro k _
      simp only [Function.comp_apply]
      omega

/-- The waits of the `runFullSync` loop under parsed non-terminal polls. -/
theorem runFullSyncPoll_waits : ∀ (polls : List PollResult) (d : Nat), d ≤ 4000 →
    (∀ r ∈ polls, runNonTerminal r = true) →
    (runFullSyncPoll polls d).2.1 =
      (List.range polls.length).map (fun k => min (d + 400 * k) 4000)
  | [], d, _, _ => by simp [runFullSyncPoll]
  | r :: rest, d, hd, h => by
    have hr := h r (List.mem_cons_self r rest)
    have hrest : ∀ x ∈ rest, runNonTerminal x = true :=
      fun x hx => h x (List.mem_cons_of_mem r hx)
    have ih := runFullSyncPoll_waits rest (min (d + 400) 4000) (Nat.min_le_right _ _) hrest
    have hstep : (runFullSyncPoll (r :: rest) d).2.1 =
        d :: (runFullSyncPoll rest (min (d + 400) 4000)).2.1 := by
      cases r with
      | error e => simp [runNonTerminal] at hr
      | ok s =>
        cases hst : s.status with
        | queued => simp [runFullSyncPoll, hst]
        | running => simp [runFullSyncPoll, hst]
        | done => simp [runNonTerminal, hst] at hr
        | error => simp [runNonTerminal, hst] at hr
    rw [hstep, ih, List.length_cons, List.range_succ_eq_map, List.map_cons, List.map_map]
    congr 1
    · omega
    · apply List.map_congr_left
      intro k _
      simp only [Function.comp_apply]
      omega

theorem chain_le_ramp (n d : Nat) :
    List.Chain' (· ≤ ·) ((List.range n).map (fun k => min (d + 400 * k) 4000)) := by
  rw [List.chain'_map]
  cases n with
  | zero => simp
  | succ m =>
    rw [List.chain'_range_succ]
    intro i _
    omega

/-- Claim C3: across consecutive non-terminal polls the waits of both
polling loops are `min (800 + 400k) 4000` for the `k`-th poll — they start
at 800 ms, grow by 400 ms per poll, are capped at 4000 ms, and form a
non-decreasing sequence bounded by 800 and 4000. -/
theorem C3_backoff (polls : List PollResult) :
    ((∀ r ∈ polls, clientNonTerminal r = true) →
      (clientPollLoop polls 800).2.1 =
        (List.range polls.length).map (fun k => min (800 + 400 * k) 4000) ∧
      List.Chain' (· ≤ ·) ((clientPollLoop polls 800).2.1) ∧
      (∀ w ∈ (clientPollLoop polls 800).2.1, 800 ≤ w ∧ w ≤ 4000) ∧
      (polls ≠ [] → ((clientPollLoop polls 800).2.1).head? = some 800)) ∧
    ((∀ r ∈ polls, runNonTerminal r = true) →
      (runFullSyncPoll polls 800).2.1 =
        (List.range polls.length).map (fun k => min (800 + 400 * k) 4000)) := by
  constructor
  · intro hc
    have hw := clientPollLoop_waits polls 800 (by omega) hc
    refine ⟨hw, ?_, ?_, ?_⟩
    · rw [hw]
      exact chain_le_ramp _ _
    · intro w hmem
      rw [hw] at hmem
      obtain ⟨k, _, rfl⟩ := List.mem_map.1 hmem
      omega
    · intro hne
      rw [hw]
      cases polls with
      | nil => exact absurd rfl hne
      | cons r rest =>
        rw [List.length_cons, List.range_succ_eq_map, List.map_cons]
        rfl
  · intro hrn
    exact runFullSyncPoll_waits polls 800 (by omega) hrn

/-- A scripted non-terminal poll result (a job reported as `running`). -/
def pollRunningProbe : PollResult := .ok { id := .str "J", status := .running }

/-- Claim C3 witness: ten non-terminal polls produce exactly the sequence
800, 1200, …, 4000, 4000 in both loops. -/
theorem C3_backoff_witness :
    (clientPollLoop (List.replicate 10 pollRunningProbe) 800).2.1 =
      [800, 1200, 1600, 2000, 2400, 2800, 3200, 3600, 4000, 4000] ∧
    (runFullSyncPoll (List.replicate 10 pollRunningProbe) 800).2.1 =
      [800, 1200, 1600, 2000, 2400, 2800, 3200, 3600, 4000, 4000] := by
  have hc : ∀ r ∈ List.replicate 10 pollRunningProbe, clientNonTerminal r = true := by
    intro r hr
    rw [List.eq_of_mem_replicate hr]
    rfl
  have hrn : ∀ r ∈ List.replicate 10 pollRunningProbe, runNonTerminal r = true := by
    intro r hr
    rw [List.eq_of_mem_replicate hr]
    rfl
  have h := C3_backoff (List.replicate 10 pollRunningProbe)
  exact ⟨((h.1 hc).1).trans rfl, (h.2 hrn).trans rfl⟩

/-- Claim C4 (amended): the `ClientButtons` polling loop swallows a failed
status check — it consumes the failure, waits the current delay and
continues exactly as the remaining script dictates; the legacy `runFullSync`
loop has no such `catch` and aborts the whole operation on the first failed
status check. -/
theorem C4_transient_tolerance (e : String) (rest : List PollResult) (d : Nat) :
    clientPollLoop (Except.error e :: rest) d =
      ((clientPollLoop rest (min (d + 400) 4000)).1,
       d :: (clientPollLoop rest (min (d + 400) 4000)).2.1,
       (clientPollLoop rest (min (d + 400) 4000)).2.2 + 1) ∧
    runFullSyncPoll (Except.error e :: rest) d = (.thrown e, [], 1) :=
  ⟨rfl, rfl⟩

/-- A 202 start response carrying a job id header and an empty body. -/
def start202Probe : HttpResponse :=
  { status := 202, headers := { hXJobId := some "JOB-1234567890" }, body := .notJson "" }

/-- A scripted terminal poll: the job reports `done`. -/
def doneProbe : PollResult :=
  .ok { id := .str "J", status := .done, result := some (.obj [("ok", .bool true)]) }

/-- Claim C4 counterexample: a polling session in which the single first
status check fails (`"network failure"`) while the next poll would report
`done`.  The claim says every polling loop proceeds to the next tick and
retries; `runFullSync`'s loop instead throws after consuming only the failed
check — the whole operation aborts and the `done` poll is never reached. -/
theorem C4_transient_tolerance_counterexample :
    runFullSync start202Probe [.error "network failure", doneProbe] =
      (.thrown "network failure", [], 1) := rfl

/-- Any HTTP 200 start response takes the synchronous path of
`startFullSyncAsync`. -/
theorem start_200_sync (res : HttpResponse) (h200 : res.status = 200) :
    ∃ r, startFullSyncAsync res = .ok (.sync r) := by
  have hok : res.ok = true := by
    simp [HttpResponse.ok, h200]
  unfold startFullSyncAsync
  cases hb : res.body with
  | json j raw =>
    cases hst : setHttpStatus j 200 with
    | some j2 => exact ⟨j2, by simp [h200, hok, hb, hst]⟩
    | none => exact ⟨.obj [("raw", .str raw)], by simp [h200, hok, hb, hst]⟩
  | notJson raw => exact ⟨.obj [("raw", .str raw)], by simp [h200, hok, hb]⟩

/-- Claim C5: a full-sync start request answered with HTTP 200 completes on
the synchronous path in both callers, and zero status checks are consumed —
no request to the job-status endpoint is ever issued for that invocation. -/
theorem C5_sync_short_circuit (res : HttpResponse) (polls : List PollResult)
    (h200 : res.status = 200) :
    (runFullSync res polls).2.2 = 0 ∧
    (∃ r, (runFullSync res polls).1 = .syncResult r) ∧
    (clientFullSync res polls).2.2 = 0 ∧
    (clientFullSync res polls).1 = .syncDone := by
  obtain ⟨r, hr⟩ := start_200_sync res h200
  unfold runFullSync clientFullSync
  rw [hr]
  exact ⟨rfl, ⟨r, rfl⟩, rfl, rfl⟩

/-- A 200 start response with a JSON body. -/
def sync200Probe : HttpResponse :=
  { status := 200, body := .json (.obj [("ok", .bool true)]) "\x7b\"ok\":true\x7d" }

/-- Claim C5 witness: with a 200 start response and a pending poll script,
neither caller consumes a single status check. -/
theorem C5_sync_short_circuit_witness :
    (runFullSync sync200Probe [pollRunningProbe]).2.2 = 0 ∧
    (clientFullSync sync200Probe [pollRunningProbe]).2.2 = 0 ∧
    (clientFullSync sync200Probe [pollRunningProbe]).1 = .syncDone := by
  have h := C5_sync_short_circuit sync200Probe [pollRunningProbe] rfl
  exact ⟨h.1, h.2.2.1, h.2.2.2⟩

/-- The value a candidate would win with in the shipping-sync resolver:
`some` exactly when its response is 2xx with an empty (→ `{}`) or
JSON-parseable body. -/
def shipParsed (c : Candidate) : Option Json :=
  match c.result with
  | .error _ => none
  | .ok r =>
    if r.ok then
      if r.body.raw = "" then some (.obj [])
      else
        match r.body with
        | .json j _ => some j
        | .notJson _ => none
    else none

/-- A candidate the shipping-sync resolver skips. -/
def shipFails (c : Candidate) : Bool := (shipParsed c).isNone

/-- The diagnostic record the shipping-sync resolver pushes for a skipped
candidate. -/
def shipAttemptOf (c : Candidate) : TriedShip :=
  match c.result with
  | .error e => { url := c.url, error := some e }
  | .ok r =>
    if r.ok then
      { url := c.url, status := some r.status, ok := some r.ok
        bodyPreview := some (previewBody r.body.raw)
        error := some "Non-JSON response despite 2xx" }
    else
      { url := c.url, status := some r.status, ok := some r.ok
        bodyPreview := some (previewBody r.body.raw) }

/-- The value a candidate would win with in the mapping-store GET resolver:
`some` exactly when its response is 2xx with an empty body or a body parsing
to an object/array. -/
def mapParsed (c : Candidate) : Option Json :=
  match c.result with
  | .error _ => none
  | .ok r =>
    if r.ok then
      if r.body.raw = "" then some (.obj [])
      else
        match r.body with
        | .json j _ => if isJsObject j then some j else none
        | .notJson _ => none
    else none

/-- A candidate the mapping-store GET resolver skips. -/
def mapFails (c : Candidate) : Bool := (mapParsed c).isNone

theorem shippingSyncResolve_step_success (c : Candidate) (rest : List Candidate)
    (d : Json) (hp : shipParsed c = some d) :
    shippingSyncResolve (c :: rest) = .success d [] := by
  unfold shipParsed at hp
  cases hc : c.result with
  | error e => rw [hc] at hp; exact absurd hp (by simp)
  | ok r =>
    rw [hc] at hp
    dsimp only at hp
    by_cases hok : r.ok = true
    · rw [if_pos hok] at hp
      by_cases hraw : r.body.raw = ""
      · rw [if_pos hraw] at hp
        simp only [Option.some.injEq] at hp
        simp [shippingSyncResolve, hc, hok, hraw, hp]
      · rw [if_neg hraw] at hp
        cases hb : r.body with
        | json j raw =>
          rw [hb] at hp
          dsimp only at hp
          simp only [Option.some.injEq] at hp
          have hraw2 : raw ≠ "" := by
            rw [hb] at hraw
            exact hraw
          simp [shippingSyncResolve, hc, hok, hb, BodyText.raw, hraw2, hp]
        | notJson raw =>
          rw [hb] at hp
          dsimp only at hp
          exact absurd hp (by simp)
    · rw [if_neg hok] at hp
      exact absurd hp (by simp)

theorem shippingSyncResolve_step_fail (c : Candidate) (rest : List Candidate)
    (hf : shipFails c = true) :
    shippingSyncResolve (c :: rest) = consTried (shipAttemptOf c) (shippingSyncResolve rest) := by
  unfold shipFails shipParsed at hf
  cases hc : c.result with
  | error e => simp [shippingSyncResolve, shipAttemptOf, hc]
  | ok r =>
    rw [hc] at hf
    dsimp only at hf
    by_cases hok : r.ok = true
    · rw [if_pos hok] at hf
      by_cases hraw : r.body.raw = ""
      · rw [if_pos hraw] at hf
        exact absurd hf (by simp)
      · rw [if_neg hraw] at hf
        cases hb : r.body with
        | json j raw =>
          rw [hb] at hf
          dsimp only at hf
          exact absurd hf (by simp)
        | notJson raw =>
          have hraw2 : raw ≠ "" := by
            rw [hb] at hraw
            exact hraw
          simp [shippingSyncResolve, shipAttemptOf, hc, hok, hb, BodyText.raw, hraw2]
    · rw [if_neg hok] at hf
      have hokf : r.ok = false := by
        revert hok
        cases r.ok <;> simp
      simp [shippingSyncResolve, shipAttemptOf, hc, hokf]

theorem mappingStoreGet_step_success (c : Candidate) (rest : List Candidate)
    (d : Json) (hp : mapParsed c = some d) :
    mappingStoreGet (c :: rest) = .success d [mapAttempt c] := by
  unfold mapParsed at hp
  cases hc : c.result with
  | error e => rw [hc] at hp; exact absurd hp (by simp)
  | ok r =>
    rw [hc] at hp
    dsimp only at hp
    by_cases hok : r.ok = true
    · rw [if_pos hok] at hp
      by_cases hraw : r.body.raw = ""
      · rw [if_pos hraw] at hp
        simp only [Option.some.injEq] at hp
        simp [mappingStoreGet, hc, hok, hraw, hp]
      · rw [if_neg hraw] at hp
        cases hb : r.body with
        | json j raw =>
          rw [hb] at hp
          dsimp only at hp
          by_cases hobj : isJsObject j = true
          · rw [if_pos hobj] at hp
            simp only [Option.some.injEq] at hp
            subst hp
            have hraw2 : raw ≠ "" := by
              rw [hb] at hraw
              exact hraw
            simp [mappingStoreGet, hc, hok, hb, BodyText.raw, hraw2, hobj]
          · rw [if_neg hobj] at hp
            exact absurd hp (by simp)
        | notJson raw =>
          rw [hb] at hp
          dsimp only at hp
          exact absurd hp (by simp)
    · rw [if_neg hok] at hp
      exact absurd hp (by simp)

theorem mappingStoreGet_step_fail (c : Candidate) (rest : List Candidate)
    (hf : mapFails c = true) :
    mappingStoreGet (c :: rest) = consTried (mapAttempt c) (mappingStoreGet rest) := by
  unfold mapFails mapParsed at hf
  cases hc : c.result with
  | error e => simp [mappingStoreGet, hc]
  | ok r =>
    rw [hc] at hf
    dsimp only at hf
    by_cases hok : r.ok = true
    · rw [if_pos hok] at hf
      by_cases hraw : r.body.raw = ""
      · rw [if_pos hraw] at hf
        exact absurd hf (by simp)
      · rw [if_neg hraw] at hf
        cases hb : r.body with
        | json j raw =>
          rw [hb] at hf
          dsimp only at hf
          by_cases hobj : isJsObject j = true
          · rw [if_pos hobj] at hf
            exact absurd hf (by simp)
          · have hraw2 : raw ≠ "" := by
              rw [hb] at hraw
              exact hraw
            have hobjf : isJsObject j = false := by
              revert hobj
              cases isJsObject j <;> simp
            simp [mappingStoreGet, hc, hok, hb, BodyText.raw, hraw2, hobjf]
        | notJson raw =>
          rw [hb] at hf
          dsimp only at hf
          have hraw2 : raw ≠ "" := by
            rw [hb] at hraw
            exact hraw
          simp [mappingStoreGet, hc, hok, hb, BodyText.raw, hraw2]
    · have hokf : r.ok = false := by
        revert hok
        cases r.ok <;> simp
      simp [mappingStoreGet, hc, hokf]

/-- First success after a failing prefix: the shipping-sync resolver skips
exactly the prefix, recording one diagnostic per skipped candidate in
order, and returns the first winner's parsed body. -/
theorem shippingSyncResolve_firstWin : ∀ (pre : List Candidate) (c : Candidate)
    (rest : List Candidate) (d : Json),
    (∀ x ∈ pre, shipFails x = true) → shipParsed c = some d →
    shippingSyncResolve (pre ++ c :: rest) = .success d (pre.map shipAttemptOf)
  | [], c, rest, d, _, hp => by
    simpa using shippingSyncResolve_step_success c rest d hp
  | a :: pre, c, rest, d, hpre, hp => by
    have ha := hpre a (List.mem_cons_self a pre)
    have hpre2 : ∀ x ∈ pre, shipFails x = true :=
      fun x hx => hpre x (List.mem_cons_of_mem a hx)
    rw [List.cons_append, shippingSyncResolve_step_fail a _ ha,
      shippingSyncResolve_firstWin pre c rest d hpre2 hp]
    rfl

/-- Claim C6 (amended): (1) in the shipping-sync resolver, candidates are
tried strictly in order and the first one answering 2xx with an empty or
JSON-parseable body wins immediately — no later candidate is touched and
the prior failures are recorded in order; (2) a 2xx answer whose non-empty
body does not parse is recorded as `"Non-JSON response despite 2xx"` and
the next candidate is tried; (3) the mapping-store GET resolver diverges
from the claim: a 2xx body parsing to a JSON primitive is NOT a success
there — it is skipped (with no non-JSON marker) and resolution continues. -/
theorem C6_first_success_amended :
    (∀ (pre : List Candidate) (c : Candidate) (rest : List Candidate) (d : Json),
      (∀ x ∈ pre, shipFails x = true) → shipParsed c = some d →
      shippingSyncResolve (pre ++ c :: rest) = .success d (pre.map shipAttemptOf)) ∧
    (∀ (c : Candidate) (r : HttpResponse) (rest : List Candidate) (raw : String),
      c.result = .ok r → r.ok = true → r.body = .notJson raw → raw ≠ "" →
      shippingSyncResolve (c :: rest) =
        consTried
          { url := c.url, status := some r.status, ok := some true
            bodyPreview := some (previewBody raw)
            error := some "Non-JSON response despite 2xx" }
          (shippingSyncResolve rest)) ∧
    (∀ (c : Candidate) (r : HttpResponse) (rest : List Candidate) (j : Json) (raw : String),
      c.result = .ok r → r.ok = true → r.body = .json j raw → raw ≠ "" →
      isJsObject j = false →
      mappingStoreGet (c :: rest) = consTried (mapAttempt c) (mappingStoreGet rest)) := by
  refine ⟨shippingSyncResolve_firstWin, ?_, ?_⟩
  · intro c r rest raw hc hok hb hraw
    have hf : shipFails c = true := by
      simp [shipFails, shipParsed, hc, hok, hb, BodyText.raw, hraw]
    rw [shippingSyncResolve_step_fail c rest hf]
    congr 1
    simp [shipAttemptOf, hc, hok, hb, BodyText.raw]
  · intro c r rest j raw hc hok hb hraw hobj
    have hf : mapFails c = true := by
      simp [mapFails, mapParsed, hc, hok, hb, BodyText.raw, hraw, hobj]
    exact mappingStoreGet_step_fail c rest hf

/-- A candidate answering 404. -/
def cand404 : Candidate :=
  { url := "u1", result := .ok { status := 404, body := .notJson "nope" } }

/-- A candidate answering 200 with an HTML (non-JSON) body. -/
def candHtml : Candidate :=
  { url := "u2", result := .ok { status := 200, body := .notJson "<html>x</html>" } }

/-- A candidate answering 200 with a JSON object body. -/
def candJson : Candidate :=
  { url := "u3"
    result := .ok { status := 200
                    body := .json (.obj [("ok", .bool true)]) "\x7b\"ok\":true\x7d" } }

/-- A candidate answering 200 with a JSON primitive body (`42`). -/
def candNum : Candidate :=
  { url := "m1", result := .ok { status := 200, body := .json (.num 42) "42" } }

/-- A candidate whose fetch throws. -/
def candNet : Candidate := { url := "u4", result := .error "fetch failed" }

/-- Claim C6 witness: the spec's pinned scenario — 404, then 200-HTML, then
200-JSON — returns the third candidate's body with exactly the two failed
attempts recorded; the 200-HTML step carries the non-JSON marker; and the
mapping-store resolver skips a 200 `42` body and keeps probing. -/
theorem C6_first_success_amended_witness :
    shippingSyncResolve ([cand404, candHtml] ++ candJson :: []) =
      .success (.obj [("ok", .bool true)]) ([cand404, candHtml].map shipAttemptOf) ∧
    shippingSyncResolve (candHtml :: [candJson]) =
      consTried
        { url := "u2", status := some 200, ok := some true
          bodyPreview := some (previewBody "<html>x</html>")
          error := some "Non-JSON response despite 2xx" }
        (shippingSyncResolve [candJson]) ∧
    mappingStoreGet (candNum :: [candJson]) =
      consTried (mapAttempt candNum) (mappingStoreGet [candJson]) := by
  refine ⟨?_, ?_, ?_⟩
  · exact C6_first_success_amended.1 [cand404, candHtml] candJson [] (.obj [("ok", .bool true)])
      (by decide) rfl
  · exact C6_first_success_amended.2.1 candHtml
      { status := 200, body := .notJson "<html>x</html>" } [candJson] "<html>x</html>"
      rfl rfl rfl (by decide)
  · exact C6_first_success_amended.2.2 candNum
      { status := 200, body := .json (.num 42) "42" } [candJson] (.num 42) "42"
      rfl rfl rfl (by decide) rfl

/-- Claim C6 counterexample: candidate `m1` answers 2xx with the
JSON-parseable body `42`, so per the claim the resolver must return `42` and
try no further candidate; the mapping-store GET resolver instead keeps
probing, succeeds on the SECOND candidate, and records the first attempt
without any `"Non-JSON response despite 2xx"` marker. -/
theorem C6_first_success_counterexample :
    shipParsed candNum = some (.num 42) ∧
    mappingStoreGet [candNum, candJson] =
      .success (.obj [("ok", .bool true)]) [mapAttempt candNum, mapAttempt candJson] ∧
    (mapAttempt candNum).error = none ∧
    mappingStoreGet [candNum, candJson] ≠ .success (.num 42) [] := by
  refine ⟨rfl, rfl, rfl, ?_⟩
  intro h
  rw [show mappingStoreGet [candNum, candJson] =
      .success (.obj [("ok", .bool true)]) [mapAttempt candNum, mapAttempt candJson]
    from rfl] at h
  injection h with h1 h2
  exact Json.noConfusion h1

theorem consTried_failure {T : Type} (a : T) (o : ResolveOutcome T) (t : List T)
    (h : consTried a o = .failure t) : ∃ t2, o = .failure t2 ∧ t = a :: t2 := by
  cases o with
  | success d t3 => exact absurd h (by simp [consTried])
  | failure t3 =>
    simp only [consTried, ResolveOutcome.failure.injEq] at h
    exact ⟨t3, rfl, h.symm⟩

theorem shipAttemptOf_url (c : Candidate) : (shipAttemptOf c).url = c.url := by
  cases hr : c.result with
  | error e => simp [shipAttemptOf, hr]
  | ok r => by_cases hok : r.ok = true <;> simp [shipAttemptOf, hr, hok]

theorem mapAttempt_url (c : Candidate) : (mapAttempt c).url = c.url := by
  cases hr : c.result with
  | error e => simp [mapAttempt, hr]
  | ok r => simp [mapAttempt, hr]

theorem shipFails_or_parsed (c : Candidate) :
    shipFails c = true ∨ ∃ d, shipParsed c = some d := by
  unfold shipFails
  cases hp : shipParsed c with
  | none => exact Or.inl rfl
  | some d => exact Or.inr ⟨d, rfl⟩

theorem mapFails_or_parsed (c : Candidate) :
    mapFails c = true ∨ ∃ d, mapParsed c = some d := by
  unfold mapFails
  cases hp : mapParsed c with
  | none => exact Or.inl rfl
  | some d => exact Or.inr ⟨d, rfl⟩

theorem shippingSyncResolve_failure_all : ∀ (cands : List Candidate) (t : List TriedShip),
    shippingSyncResolve cands = .failure t →
    t.length = cands.length ∧ t.map (fun a => a.url) = cands.map (fun c => c.url)
  | [], t, h => by
    simp only [shippingSyncResolve, ResolveOutcome.failure.injEq] at h
    subst h
    exact ⟨rfl, rfl⟩
  | c :: rest, t, h => by
    rcases shipFails_or_parsed c with hf | ⟨d, hd⟩
    · rw [shippingSyncResolve_step_fail c rest hf] at h
      obtain ⟨t2, h2, rfl⟩ := consTried_failure _ _ _ h
      obtain ⟨hl, hu⟩ := shippingSyncResolve_failure_all rest t2 h2
      exact ⟨by simp [hl], by simp [hu, shipAttemptOf_url]⟩
    · rw [shippingSyncResolve_step_success c rest d hd] at h
      exact absurd h (by simp)

theorem mappingStoreGet_failure_all : ∀ (cands : List Candidate) (t : List TriedMap),
    mappingStoreGet cands = .failure t →
    t.length = cands.length ∧ t.map (fun a => a.url) = cands.map (fun c => c.url)
  | [], t, h => by
    simp only [mappingStoreGet, ResolveOutcome.failure.injEq] at h
    subst h
    exact ⟨rfl, rfl⟩
  | c :: rest, t, h => by
    rcases mapFails_or_parsed c with hf | ⟨d, hd⟩
    · rw [mappingStoreGet_step_fail c rest hf] at h
      obtain ⟨t2, h2, rfl⟩ := consTried_failure _ _ _ h
      obtain ⟨hl, hu⟩ := mappingStoreGet_failure_all rest t2 h2
      exact ⟨by simp [hl], by simp [hu, mapAttempt_url]⟩
    · rw [mappingStoreGet_step_success c rest d hd] at h
      exact absurd h (by simp)

/-- Claim C7: when every candidate fails, both resolvers surface a
diagnostic list with exactly one record per candidate, in the original
candidate order (each record also carries status, body preview and/or error
by construction of `shipAttemptOf` / `mapAttempt`). -/
theorem C7_exhaustion_diagnostics (cands : List Candidate) :
    (∀ t, shippingSyncResolve cands = .failure t →
      t.length = cands.length ∧ t.map (fun a => a.url) = cands.map (fun c => c.url)) ∧
    (∀ t, mappingStoreGet cands = .failure t →
      t.length = cands.length ∧ t.map (fun a => a.url) = cands.map (fun c => c.url)) :=
  ⟨fun t h => shippingSyncResolve_failure_all cands t h,
   fun t h => mappingStoreGet_failure_all cands t h⟩

/-- Claim C7 witness: two failing candidates for the shipping resolver and
three (404, JSON-primitive, network error) for the mapping resolver yield
diagnostic lists of matching length and order. -/
theorem C7_exhaustion_diagnostics_witness :
    ([shipAttemptOf cand404, shipAttemptOf candHtml].length = [cand404, candHtml].length ∧
      [shipAttemptOf cand404, shipAttemptOf candHtml].map (fun a => a.url) =
        [cand404, candHtml].map (fun c => c.url)) ∧
    ([mapAttempt cand404, mapAttempt candNum, mapAttempt candNet].length =
        [cand404, candNum, candNet].length ∧
      [mapAttempt cand404, mapAttempt candNum, mapAttempt candNet].map (fun a => a.url) =
        [cand404, candNum, candNet].map (fun c => c.url)) := by
  constructor
  · exact (C7_exhaustion_diagnostics [cand404, candHtml]).1
      [shipAttemptOf cand404, shipAttemptOf candHtml] rfl
  · exact (C7_exhaustion_diagnostics [cand404, candNum, candNet]).2
      [mapAttempt cand404, mapAttempt candNum, mapAttempt candNet] rfl

/-- A first-candidate response: 200 with the empty JSON object. -/
def okEmptyObjRes : HttpResponse :=
  { status := 200, body := .json (.obj []) "\x7b\x7d" }

/-- Claim C8 (amended): only the first full-sync proxy variant raises a
configuration error (500, before any fetch) and only for a missing/empty
base URL; when the base URL is present it forwards to the backend.  The
resolver routes never fail on configuration: missing admin credentials just
omit the `Authorization` header while the probes proceed (and succeed), and
a missing base URL is silently replaced by the default
`http://integration:8000`. -/
theorem C8_config_amended (e : Env) (b : BodyText) (rs : List (Except String HttpResponse)) :
    ((e.integrationBaseUrl).getD "" = "" →
      fullSyncProxy1 e b =
        .early 500 (.obj [("error", .str "INTEGRATION_BASE_URL missing")])) ∧
    ((e.integrationBaseUrl).getD "" ≠ "" →
      ∃ req, fullSyncProxy1 e b = .forward req ∧
        req.url = (e.integrationBaseUrl).getD "" ++ "/api/sync/full") ∧
    (envUser e = "" ∨ envPass e = "" →
      buildAuthHeader e = none ∧
      shipHeaders e = [("Accept", "application/json"), ("Content-Type", "application/json")] ∧
      shippingSyncRoute e (Except.ok okEmptyObjRes :: rs) = .success (.obj []) []) ∧
    (e.integrationBaseUrl = none → resolvedBase e = "http://integration:8000") := by
  refine ⟨?_, ?_, ?_, ?_⟩
  · intro hm
    simp [fullSyncProxy1, hm]
  · intro hm
    simp only [fullSyncProxy1, if_neg hm]
    exact ⟨_, rfl, rfl⟩
  · intro hcred
    have hauth : buildAuthHeader e = none := by
      simp only [buildAuthHeader, if_pos hcred]
    refine ⟨hauth, ?_, ?_⟩
    · simp [shipHeaders, hauth]
    · simp only [shippingSyncRoute, shipCandidateUrls, List.zipWith]
      exact shippingSyncResolve_step_success _ _ _ rfl
  · intro hm
    simp [resolvedBase, orEnv, hm]
    rfl

/-- The empty environment: no base URL and no credentials configured. -/
def envEmpty : Env := {}

/-- Claim C8 counterexample: with NOTHING configured — no base URL, no
credentials — the shipping-sync resolver raises no configuration error at
all: it probes the default base `http://integration:8000` without an
`Authorization` header and the operation completes, contradicting the
claim that missing base URL or credentials fail before any network call. -/
theorem C8_config_counterexample :
    buildAuthHeader envEmpty = none ∧
    (shipCandidateUrls envEmpty).head? =
      some "http://integration:8000/admin/api/integration/shipping/sync" ∧
    shippingSyncRoute envEmpty [Except.ok okEmptyObjRes] = .success (.obj []) [] := by
  exact ⟨rfl, rfl, rfl⟩

/-- Claim C8 witness: the amended claim evaluated on the empty environment:
the first proxy variant fails fast with the 500 configuration error, while
the resolver route omits auth, uses the default base and proceeds. -/
theorem C8_config_amended_witness :
    fullSyncProxy1 envEmpty (.notJson "") =
      .early 500 (.obj [("error", .str "INTEGRATION_BASE_URL missing")]) ∧
    buildAuthHeader envEmpty = none ∧
    shipHeaders envEmpty = [("Accept", "application/json"), ("Content-Type", "application/json")] ∧
    shippingSyncRoute envEmpty [Except.ok okEmptyObjRes] = .success (.obj []) [] ∧
    resolvedBase envEmpty = "http://integration:8000" := by
  have h := C8_config_amended envEmpty (.notJson "") []
  obtain ⟨hc, _⟩ := h.2.2.1 (Or.inl rfl)
  exact ⟨h.1 rfl, hc, (h.2.2.1 (Or.inl rfl)).2.1, (h.2.2.1 (Or.inl rfl)).2.2, h.2.2.2 rfl⟩

/-- Claim C9: when the request body of the full-sync proxy omits both
`purgeBin` and `purge_bin` (in particular when it is not valid JSON), every
route variant forwards `purge_bin: true`; and when `dryRun`/`dry_run` are
also absent, `dry_run` is forwarded as `false`. -/
theorem C9_purge_default (b : BodyText)
    (hpb : (parsedOrEmpty b).getField "purgeBin" = none)
    (hps : (parsedOrEmpty b).getField "purge_bin" = none) :
    ((fullBody1 (parsedOrEmpty b)).getField "purge_bin" = some (.bool true) ∧
     (fullBody2 (parsedOrEmpty b)).getField "purge_bin" = some (.bool true)) ∧
    ((parsedOrEmpty b).getField "dryRun" = none →
     (parsedOrEmpty b).getField "dry_run" = none →
     (fullBody1 (parsedOrEmpty b)).getField "dry_run" = some (.bool false) ∧
     (fullBody2 (parsedOrEmpty b)).getField "dry_run" = some (.bool false)) := by
  constructor
  · constructor
    · have e1 : (fullBody1 (parsedOrEmpty b)).getField "purge_bin" =
          some (.bool (jsNullish ((parsedOrEmpty b).getField "purge_bin")
            (.bool true)).truthy) := rfl
      rw [e1, hps]
      rfl
    · have e2 : (fullBody2 (parsedOrEmpty b)).getField "purge_bin" =
          some (.bool (jsNullish ((parsedOrEmpty b).getField "purgeBin")
            (jsNullish ((parsedOrEmpty b).getField "purge_bin") (.bool true))).truthy) := rfl
      rw [e2, hpb, hps]
      rfl
  · intro hdc hds
    constructor
    · have e1 : (fullBody1 (parsedOrEmpty b)).getField "dry_run" =
          some (.bool (jsNullish ((parsedOrEmpty b).getField "dry_run")
            (.bool false)).truthy) := rfl
      rw [e1, hds]
      rfl
    · have e2 : (fullBody2 (parsedOrEmpty b)).getField "dry_run" =
          some (.bool (jsNullish ((parsedOrEmpty b).getField "dryRun")
            (jsNullish ((parsedOrEmpty b).getField "dry_run") (.bool false))).truthy) := rfl
      rw [e2, hdc, hds]
      rfl

/-- Claim C9 witness: an unparseable request body and a JSON body with
unrelated fields both default to `purge_bin: true`, `dry_run: false`. -/
theorem C9_purge_default_witness :
    ((fullBody1 (parsedOrEmpty (.notJson "garbage"))).getField "purge_bin"
        = some (.bool true) ∧
      (fullBody2 (parsedOrEmpty (.notJson "garbage"))).getField "purge_bin"
        = some (.bool true)) ∧
    ((fullBody1 (parsedOrEmpty (.notJson "garbage"))).getField "dry_run"
        = some (.bool false) ∧
      (fullBody2 (parsedOrEmpty (.notJson "garbage"))).getField "dry_run"
        = some (.bool false)) ∧
    (fullBody2 (parsedOrEmpty (.json (.obj [("other", .num 1)]) "\x7b\"other\":1\x7d"))).getField
        "purge_bin" = some (.bool true) := by
  have h1 := C9_purge_default (.notJson "garbage") rfl rfl
  have h2 := C9_purge_default (.json (.obj [("other", .num 1)]) "\x7b\"other\":1\x7d") rfl rfl
  exact ⟨h1.1, h1.2 rfl rfl, h2.1.2⟩

/-- Claim C10: a successful (2xx) start response other than 202 whose body
is not valid JSON does not raise: `startFullSyncAsync` returns the
synchronous result `{raw: <body text>}` — unlike the endpoint resolver, the
job-trigger layer treats a 2xx non-JSON body as success. -/
theorem C10_sync_raw_fallback (status : Nat) (h : SyncHeaders) (ct : Option String)
    (raw : String) (hlo : 200 ≤ status) (hhi : status ≤ 299) (h202 : status ≠ 202) :
    startFullSyncAsync { status := status, headers := h, contentType := ct, body := .notJson raw }
      = .ok (.sync (.obj [("raw", .str raw)])) := by
  have hok : HttpResponse.ok
      { status := status, headers := h, contentType := ct, body := .notJson raw } = true := by
    simp [HttpResponse.ok, hlo, hhi]
  simp [startFullSyncAsync, h202, hok]

/-- Claim C10 witness: a 204 response with an HTML body yields the raw-text
synchronous result. -/
theorem C10_sync_raw_fallback_witness :
    startFullSyncAsync { status := 204, body := .notJson "<html>done</html>" } =
      .ok (.sync (.obj [("raw", .str "<html>done</html>")])) :=
  C10_sync_raw_fallback 204 {} none "<html>done</html>" (by decide) (by decide) (by decide)

end ErpWoo
